import Mathlib

/-!
Verification of `platform/linux-dpdk/odp_system_info.c` (odp-dpdk).

The C functions are shallowly embedded over `List Char` (C strings without
the terminating NUL) and `Nat` reduced modulo `2 ^ 64` where the C code
computes in `uint64_t` / `unsigned long`.  File contents (`/proc/meminfo`,
`/proc/mounts`) are modelled as lists of lines, directory listings as lists
of entry names, exactly as the C code consumes them via `fgets` / `readdir`.

Target build: LP64 (x86-64 Linux, the DPDK platform), so
`sizeof(const char *) = 8`.
-/

/-- `isspace` in the C locale: space, \t, \n, \v, \f, \r. -/
def isCSpace (c : Char) : Bool :=
  c == ' ' || c == '\t' || c == '\n' || c == '\x0b' || c == '\x0c' || c == '\r'

/-- Value of a decimal digit character. -/
def decVal (c : Char) : Nat := c.toNat - 48

/-- Octal digit test. -/
def isOctDigit (c : Char) : Bool := 48 ≤ c.toNat && c.toNat ≤ 55

/-- Hexadecimal digit test. -/
def isHexDigit (c : Char) : Bool :=
  c.isDigit || (97 ≤ c.toNat && c.toNat ≤ 102) || (65 ≤ c.toNat && c.toNat ≤ 70)

/-- Value of a hexadecimal digit character. -/
def hexVal (c : Char) : Nat :=
  if c.isDigit then c.toNat - 48
  else if 97 ≤ c.toNat then c.toNat - 87
  else c.toNat - 55

/-- Parse a maximal run of digits of a given base at the head of `s`;
returns (value, number of digits consumed, rest of the string). -/
def parseDigitsBase (isD : Char → Bool) (val : Char → Nat) (base : Nat)
    (s : List Char) : Nat × Nat × List Char :=
  let ds := s.takeWhile isD
  (ds.foldl (fun a c => a * base + val c) 0, ds.length, s.dropWhile isD)

/-- `sizeof(const char *)` on the LP64 target.  The C file computes its
"string lengths" from `sizeof` of *pointer* variables
(`const char *hugetlbfs_str`, `const char *pagesize_opt`), not of the string
literals, so both lengths come out as `8 - 1 = 7`. -/
def sizeof_const_char_ptr : Nat := 8

/-- `const size_t htlbfs_str_len = sizeof(hugetlbfs_str) - 1;` where
`hugetlbfs_str` is a `const char *` — this is `sizeof(void *) - 1 = 7`,
not `strlen("hugetlbfs") = 9`. -/
def htlbfs_str_len : Nat := sizeof_const_char_ptr - 1

/-- `const size_t pagesize_opt_len = sizeof(pagesize_opt) - 1;` where
`pagesize_opt` is a `const char *` — again `7`, not `strlen("pagesize=") = 9`. -/
def pagesize_opt_len : Nat := sizeof_const_char_ptr - 1

/-- DPDK `rte_str_to_size` (rte_common.h), as called by `get_hugepage_dir`:
skip leading whitespace; a leading `-` yields 0; `strtoull(str, &endptr, 0)`
(optional `+`, base prefix `0x`/`0` honoured, overflow ⇒ errno ⇒ 0);
one optional space before a `K/M/G` suffix that multiplies by 2^10/2^20/2^30;
arithmetic in `unsigned long long`, i.e. modulo `2 ^ 64`. -/
def rte_str_to_size (s0 : List Char) : Nat :=
  let s := s0.dropWhile isCSpace
  if s.head? == some '-' then 0
  else
    let s1 := if s.head? == some '+' then s.tail else s
    let r :=
      match s1 with
      | '0' :: x :: t =>
        if (x == 'x' || x == 'X') && (match t with
                                      | c :: _ => isHexDigit c
                                      | [] => false) then
          parseDigitsBase isHexDigit hexVal 16 t
        else
          parseDigitsBase isOctDigit decVal 8 ('0' :: x :: t)
      | ['0'] => (0, 1, ([] : List Char))
      | _ => parseDigitsBase Char.isDigit decVal 10 s1
    if r.2.1 == 0 then 0
    else if 2 ^ 64 ≤ r.1 then 0
    else
      let rest := if r.2.2.head? == some ' ' then r.2.2.tail else r.2.2
      let m : Nat :=
        match rest.head? with
        | some c =>
          if c == 'G' || c == 'g' then 2 ^ 30
          else if c == 'M' || c == 'm' then 2 ^ 20
          else if c == 'K' || c == 'k' then 2 ^ 10
          else 1
        | none => 1
      (r.1 * m) % 2 ^ 64

/-- The `%8lu` conversion of `sscanf`: skip whitespace, optional sign
(counted against the field width of 8), then at least one and at most the
remaining-width decimal digits; value converted as `strtoul` (a `-` sign
negates modulo `2 ^ 64`).  Returns `none` when no digit is found, i.e. when
`sscanf` reports 0 conversions. -/
def scanfU8 (s : List Char) : Option Nat :=
  let s1 := s.dropWhile isCSpace
  let neg := s1.head? == some '-'
  let signed := neg || s1.head? == some '+'
  let s2 := if signed then s1.tail else s1
  let width := if signed then 7 else 8
  let ds := (s2.takeWhile Char.isDigit).take width
  if ds.isEmpty then none
  else
    let d := ds.foldl (fun a c => a * 10 + decVal c) 0
    some (if neg then (2 ^ 64 - d % 2 ^ 64) % 2 ^ 64 else d % 2 ^ 64)

/-- One line of `/proc/meminfo` against `sscanf(str, "Hugepagesize:   %8lu kB", &sz)`:
the literal key must match at the start of the line; the whitespace directive
and `%8lu` both skip (possibly zero) whitespace; success (`sscanf == 1`) is
exactly one converted value — the trailing `" kB"` cannot change the
return value once the conversion succeeded. -/
def hpMeminfoParse (line : List Char) : Option Nat :=
  if "Hugepagesize:".toList.isPrefixOf line then scanfU8 (line.drop 13)
  else none

/-- `default_huge_page_size`: scan the lines of `/proc/meminfo`; the first
line matching the `Hugepagesize` pattern yields `(uint64_t)sz * 1024`;
no matching line (or unreadable file = empty list) yields 0. -/
def default_huge_page_size : List (List Char) → Nat
  | [] => 0
  | l :: ls =>
    match hpMeminfoParse l with
    | some sz => (sz * 1024) % 2 ^ 64
    | none => default_huge_page_size ls

/-- DPDK `rte_strsplit(string, stringlen, tokens, maxtokens, delim)` as
called on a NUL-terminated `fgets` buffer: tokens start at the first
character and after each delimiter; each of the first `maxtokens - 1`
tokens is cut at the next delimiter; the token filling the last slot is cut
only if its very first character is the delimiter, otherwise it keeps the
rest of the line (embedded delimiters included).  Returns the token list;
the C return value is its length. -/
def rte_strsplit (s : List Char) (maxtokens : Nat) (delim : Char) : List (List Char) :=
  match s, maxtokens with
  | [], _ => []
  | _, 0 => []
  | s, 1 => if s.head? == some delim then [[]] else [s]
  | s, r + 2 =>
    let tok := s.takeWhile (· ≠ delim)
    match s.dropWhile (· ≠ delim) with
    | [] => [tok]
    | _ :: rest => tok :: rte_strsplit rest (r + 1) delim

/-- The token split `get_hugepage_dir` applies to one `/proc/mounts` line:
`rte_strsplit(buf, sizeof(buf), tokens, _FIELDNAME_MAX, ' ')` with
`_FIELDNAME_MAX = 4`. -/
def mount_tokens (line : List Char) : List (List Char) :=
  rte_strsplit line 4 ' '

/-- `strncmp(fstype, hugetlbfs_str, htlbfs_str_len) == 0`: with
`htlbfs_str_len = 7` this compares only the first 7 characters, i.e. tests
whether `"hugetlb"` is a prefix of the filesystem-type field (`strncmp`
stops early at a NUL, so a field shorter than 7 characters never matches
the NUL-free pattern). -/
def hugetlbMatch (fstype : List Char) : Bool :=
  ("hugetlbfs".toList.take htlbfs_str_len).isPrefixOf fstype

/-- The options key the C code searches with `strstr`. -/
def pagesizeOptStr : List Char := "pagesize=".toList

/-- `strstr(hay, needle)`: suffix of `hay` starting at the first occurrence
of `needle`, or `none` (NULL). -/
def findSubstr : List Char → List Char → Option (List Char)
  | [], n => if n.isEmpty then some [] else none
  | h :: t, n => if n.isPrefixOf (h :: t) then some (h :: t) else findSubstr t n

/-- Outcome of one iteration of the `while (fgets...)` loop of
`get_hugepage_dir`. -/
inductive LineRes
  | abort
  | found (mp : List Char)
  | skip
deriving DecidableEq

/-- The loop body of `get_hugepage_dir` on one `/proc/mounts` line:
`rte_strsplit` must yield exactly `_FIELDNAME_MAX = 4` tokens, else the scan
aborts (`break` returning NULL); a `hugetlbfs`-matching FSTYPE field is then
matched either by the default size (no `pagesize=` in OPTIONS) or by
`rte_str_to_size(&pagesz_str[pagesize_opt_len])` — note the offset is the
buggy `pagesize_opt_len = 7`, landing on the final `e=` of `pagesize=`. -/
def lineVerdict (default_size hugepage_sz : Nat) (line : List Char) : LineRes :=
  if (mount_tokens line).length ≠ 4 then .abort
  else if hugetlbMatch ((mount_tokens line).getD 2 []) then
    match findSubstr ((mount_tokens line).getD 3 []) pagesizeOptStr with
    | none =>
      if hugepage_sz = default_size then .found ((mount_tokens line).getD 1 [])
      else .skip
    | some pagesz_str =>
      if rte_str_to_size (pagesz_str.drop pagesize_opt_len) = hugepage_sz then
        .found ((mount_tokens line).getD 1 [])
      else .skip
  else .skip

/-- The `while (fgets...)` loop of `get_hugepage_dir`: first match wins,
a malformed line aborts the whole scan with NULL. -/
def get_hugepage_dir_scan (default_size hugepage_sz : Nat) :
    List (List Char) → Option (List Char)
  | [] => none
  | line :: rest =>
    match lineVerdict default_size hugepage_sz line with
    | .abort => none
    | .found mp => some mp
    | .skip => get_hugepage_dir_scan default_size hugepage_sz rest

/-- `get_hugepage_dir(hugepage_sz)`: resolves the static `default_size`
from `/proc/meminfo` (the static is 0 before first use, so it is computed
by `default_huge_page_size()`), substitutes the default for a requested
size of 0, and scans `/proc/mounts`. -/
def get_hugepage_dir (meminfo mounts : List (List Char)) (hugepage_sz : Nat) :
    Option (List Char) :=
  let default_size := default_huge_page_size meminfo
  get_hugepage_dir_scan default_size
    (if hugepage_sz = 0 then default_size else hugepage_sz) mounts

/-- `hugepage_info_t`, the fields this file populates. -/
structure hugepage_info_t where
  default_huge_page_size : Nat
  default_huge_page_dir : Option (List Char)
deriving DecidableEq

/-- `system_hp`: fills `hugeinfo` from `/proc/meminfo` and `/proc/mounts`
and always returns 0 (success), whatever the scans produced. -/
def system_hp (meminfo mounts : List (List Char)) : Int × hugepage_info_t :=
  (0, ⟨default_huge_page_size meminfo,
       get_hugepage_dir meminfo mounts 0⟩)

/-- One `readdir` name against `sscanf(entry->d_name, "hugepages-%8lukB", &sz)`:
the literal prefix must match, then `%8lu` must convert (the trailing `kB`
literal cannot lower the return value below 1 once the conversion
succeeded).  A match contributes `sz * 1024` (stored into `uint64_t`). -/
def hpEntryParse (name : List Char) : Option Nat :=
  if "hugepages-".toList.isPrefixOf name then
    (scanfU8 (name.drop 10)).map (fun sz => (sz * 1024) % 2 ^ 64)
  else none

/-- `pagesz_compare`: `return (*(const uint64_t *)p1 - *(const uint64_t *)p2);`
— the `uint64_t` difference (wrapping modulo `2 ^ 64`) is converted to the
`int` return type, i.e. truncated to its low 32 bits and re-read as a signed
32-bit value (gcc/clang behaviour on the LP64 target). -/
def pagesz_compare (a b : Nat) : Int :=
  let d : Nat := (a + (2 ^ 64 - b % 2 ^ 64)) % 2 ^ 64
  let t : Nat := d % 2 ^ 32
  if t < 2 ^ 31 then (t : Int) else (t : Int) - 2 ^ 32

/-- Comparator-driven stable insertion (the element being inserted arrived
after the accumulated ones, and stays after every element the comparator
does not place strictly above it) — the sorting contract `qsort` implements
for the comparator it is given. -/
def qsortInsert (cmp : Nat → Nat → Int) (x : Nat) : List Nat → List Nat
  | [] => [x]
  | y :: ys => if cmp y x ≤ 0 then y :: qsortInsert cmp x ys else x :: y :: ys

/-- `qsort(size, saved, sizeof(uint64_t), pagesz_compare)` modelled as a
comparator-respecting (insertion) sort. -/
def qsortModel (cmp : Nat → Nat → Int) (l : List Nat) : List Nat :=
  l.foldl (fun acc x => qsortInsert cmp x acc) []

/-- The `while (readdir...)` loop of `odp_sys_huge_page_size_all`:
`cnt` is `pagesz_num`, `saved` the prefix of `size[]` written so far
(its length is `saved` in the C code); an entry is stored only while
`saved < num`, but counted always. -/
def hp_size_all_loop (num : Nat) : List (List Char) → Nat → List Nat → Nat × List Nat
  | [], cnt, saved => (cnt, saved)
  | e :: es, cnt, saved =>
    match hpEntryParse e with
    | some sz =>
      hp_size_all_loop num es (cnt + 1)
        (if saved.length < num then saved ++ [sz] else saved)
    | none => hp_size_all_loop num es cnt saved

/-- `odp_sys_huge_page_size_all(size, num)` with a non-NULL destination:
returns `(pagesz_num, final contents of size[0..saved))`; the written
prefix is `qsort`ed when it holds more than one entry. -/
def odp_sys_huge_page_size_all (entries : List (List Char)) (num : Nat) :
    Nat × List Nat :=
  let r := hp_size_all_loop num entries 0 []
  (r.1, if 1 < r.2.length then qsortModel pagesz_compare r.2 else r.2)

/-- `system_info_t`, the fields this file reads or writes. -/
structure system_info_t where
  cpu_count : Int := 0
  cache_line_size : Int := 0
  page_size : Nat := 0
  cpu_hz_max : List Nat := []
  model_str : List (List Char) := []
deriving DecidableEq

/-- `odp_sys_cache_line_size`. -/
def odp_sys_cache_line_size (s : system_info_t) : Int :=
  s.cache_line_size

/-- `systemcpu`: fails (−1, modelled `none`) when the CPU count is 0, when
the cache-line probe returns 0, or when the probed value differs from the
compiled `ODP_CACHE_LINE_SIZE`; on success the probed value has been stored
in `sysinfo->cache_line_size`.  `num_cpus_installed` is what
`sysconf_cpu_count()` reports and `probe` what `systemcpu_cache_line_size()`
reads. -/
def systemcpu (odp_cache_line_size_const : Int) (num_cpus_installed probe : Int)
    (sysinfo : system_info_t) : Option system_info_t :=
  if num_cpus_installed = 0 then none
  else
    let s1 := { sysinfo with cpu_count := num_cpus_installed }
    if probe = 0 then none
    else
      let s2 := { s1 with cache_line_size := probe }
      if probe ≠ odp_cache_line_size_const then none else some s2

/-- `odp_cpu_hz_max_id`: in-range ids read `cpu_hz_max[id]`, out-of-range
ids return 0 without touching the array.  `config_num_cpu_ids` is the
compiled `CONFIG_NUM_CPU_IDS`, the length of the tracked arrays. -/
def odp_cpu_hz_max_id (config_num_cpu_ids : Nat) (s : system_info_t)
    (id : Int) : Nat :=
  if 0 ≤ id ∧ id < (config_num_cpu_ids : Int) then s.cpu_hz_max.getD id.toNat 0
  else 0

/-- `odp_cpu_hz_max()`. -/
def odp_cpu_hz_max (config_num_cpu_ids : Nat) (s : system_info_t) : Nat :=
  odp_cpu_hz_max_id config_num_cpu_ids s 0

/-- `odp_cpu_model_str_id`: in-range ids return the (always present)
`model_str[id]` array, out-of-range ids return NULL (`none`). -/
def odp_cpu_model_str_id (config_num_cpu_ids : Nat) (s : system_info_t)
    (id : Int) : Option (List Char) :=
  if 0 ≤ id ∧ id < (config_num_cpu_ids : Int) then some (s.model_str.getD id.toNat [])
  else none

/-- `odp_cpu_model_str()`. -/
def odp_cpu_model_str (config_num_cpu_ids : Nat) (s : system_info_t) :
    Option (List Char) :=
  odp_cpu_model_str_id config_num_cpu_ids s 0

/-! ## Helper lemmas -/

/-- Prepending lines the loop body skips does not change the scan result. -/
theorem get_hugepage_dir_scan_append_skip (ds hs : Nat) (pre xs : List (List Char))
    (h : ∀ l ∈ pre, lineVerdict ds hs l = LineRes.skip) :
    get_hugepage_dir_scan ds hs (pre ++ xs) = get_hugepage_dir_scan ds hs xs := by
  induction pre with
  | nil => rfl
  | cons a as ih =>
    have ha : lineVerdict ds hs a = LineRes.skip := h a (List.mem_cons_self a as)
    simp only [List.cons_append, get_hugepage_dir_scan, ha]
    exact ih (fun l hl => h l (List.mem_cons_of_mem a hl))

/-- A scan over lines none of which the loop body matches returns NULL. -/
theorem get_hugepage_dir_scan_none (ds hs : Nat) (ms : List (List Char))
    (h : ∀ l ∈ ms, ∀ mp, lineVerdict ds hs l ≠ LineRes.found mp) :
    get_hugepage_dir_scan ds hs ms = none := by
  induction ms with
  | nil => rfl
  | cons a as ih =>
    simp only [get_hugepage_dir_scan]
    cases hv : lineVerdict ds hs a with
    | abort => rfl
    | found mp => exact absurd hv (h a (List.mem_cons_self a as) mp)
    | skip => exact ih (fun l hl mp => h l (List.mem_cons_of_mem a hl) mp)

/-- The loop body declares a match only on a line whose filesystem-type
field passes the `hugetlbfs` prefix test. -/
theorem lineVerdict_found_fstype (ds hs : Nat) (l mp : List Char)
    (h : lineVerdict ds hs l = LineRes.found mp) :
    hugetlbMatch ((mount_tokens l).getD 2 []) = true := by
  unfold lineVerdict at h
  split at h
  · exact absurd h (by simp)
  · split at h
    · assumption
    · exact absurd h (by simp)

/-! ## Claim theorems -/

/-- C1 (code bug): at the spec's own example — mount line
`"none /mnt/huge hugetlbfs rw,pagesize=2M 0 0"`, requested size 2097152,
discovered default 2097152 — mount-directory resolution returns NULL
instead of `"/mnt/huge"`.  The cause: `pagesize_opt_len` is
`sizeof(const char *) - 1 = 7` instead of `strlen("pagesize=") = 9`, so
`rte_str_to_size` is handed `"e=2M 0 0"` and parses 0; parsing from the
intended offset 9 would give 2097152 and match the request. -/
theorem get_hugepage_dir_pagesize_example :
    get_hugepage_dir ["Hugepagesize:   2048 kB".toList]
      ["none /mnt/huge hugetlbfs rw,pagesize=2M 0 0".toList] 2097152 = none ∧
    rte_str_to_size ("pagesize=2M 0 0".toList.drop pagesize_opt_len) = 0 ∧
    rte_str_to_size ("pagesize=2M 0 0".toList.drop 9) = 2097152 :=
  ⟨by decide, by decide, by decide⟩

/-- C2 counterexample: with no `Hugepagesize` line in `/proc/meminfo` the
default size is recorded as 0, yet a hugetlbfs mount line without a
`pagesize=` option matches (0 = 0), so `system_hp` records a mount
directory while `default_huge_page_size` is 0. -/
theorem hp_dir_present_with_zero_default :
    (system_hp [] ["none /mnt/huge hugetlbfs rw 0 0".toList]).2.default_huge_page_size
      = 0 ∧
    (system_hp [] ["none /mnt/huge hugetlbfs rw 0 0".toList]).2.default_huge_page_dir
      = some "/mnt/huge".toList :=
  ⟨by decide, by decide⟩

/-- C2 (amended): after `system_hp`, whenever `default_huge_page_size` is 0
and the mount table contains no line whose filesystem-type field passes the
hugetlbfs prefix test, `default_huge_page_dir` is absent. -/
theorem hp_dir_absent_of_no_hugetlb (meminfo mounts : List (List Char))
    (_hsz : (system_hp meminfo mounts).2.default_huge_page_size = 0)
    (hnofs : ∀ l ∈ mounts, hugetlbMatch ((mount_tokens l).getD 2 []) = false) :
    (system_hp meminfo mounts).2.default_huge_page_dir = none := by
  show get_hugepage_dir meminfo mounts 0 = none
  unfold get_hugepage_dir
  refine get_hugepage_dir_scan_none _ _ _ (fun l hl mp hf => ?_)
  have hfs := lineVerdict_found_fstype _ _ _ _ hf
  rw [hnofs l hl] at hfs
  exact Bool.false_ne_true hfs

/-- C3: if every line before it is skipped and a line does not split into
exactly `_FIELDNAME_MAX = 4` fields, the mount scan aborts there: it
returns NULL, the lines after the malformed one never influence the
result, and `system_hp` (initialization) still reports success (0). -/
theorem get_hugepage_dir_scan_malformed_aborts (ds hs : Nat)
    (pre post meminfo : List (List Char)) (bad : List Char)
    (hpre : ∀ l ∈ pre, lineVerdict ds hs l = LineRes.skip)
    (hbad : (mount_tokens bad).length ≠ 4) :
    get_hugepage_dir_scan ds hs (pre ++ bad :: post) = none ∧
    get_hugepage_dir_scan ds hs (pre ++ bad :: post) =
      get_hugepage_dir_scan ds hs (pre ++ [bad]) ∧
    (system_hp meminfo (pre ++ bad :: post)).1 = 0 := by
  have habort : lineVerdict ds hs bad = LineRes.abort := by
    unfold lineVerdict; rw [if_pos hbad]
  have h1 : ∀ post', get_hugepage_dir_scan ds hs (pre ++ bad :: post') = none := by
    intro post'
    rw [get_hugepage_dir_scan_append_skip ds hs pre (bad :: post') hpre]
    simp only [get_hugepage_dir_scan, habort]
  exact ⟨h1 post, by rw [h1 post]; exact (h1 []).symm, rfl⟩

/-- C3 witness: a skipped line, then a 2-field line, then a line that would
match — the scan returns NULL. -/
theorem get_hugepage_dir_scan_malformed_aborts_witness :
    get_hugepage_dir_scan 2097152 2097152
      ("proc /proc proc rw 0 0\n".toList :: "bad line\n".toList ::
        ["none /mnt/huge hugetlbfs rw 0 0\n".toList]) = none :=
  (get_hugepage_dir_scan_malformed_aborts 2097152 2097152
    ["proc /proc proc rw 0 0\n".toList]
    ["none /mnt/huge hugetlbfs rw 0 0\n".toList] [] "bad line\n".toList
    (by decide) (by decide)).1

/-- C4: on a line that splits into four fields, whose filesystem-type field
passes the hugetlbfs test and whose options field has no `pagesize=` key,
resolution (with a nonzero requested size) matches exactly when the
requested size equals the discovered default size, returning that line's
mount-point field; otherwise the scan moves on to the remaining lines. -/
theorem get_hugepage_dir_default_size_match (meminfo rest : List (List Char))
    (line : List Char) (s : Nat) (hs0 : s ≠ 0)
    (hlen : (mount_tokens line).length = 4)
    (hfs : hugetlbMatch ((mount_tokens line).getD 2 []) = true)
    (hopt : findSubstr ((mount_tokens line).getD 3 []) pagesizeOptStr = none) :
    get_hugepage_dir meminfo (line :: rest) s =
      if s = default_huge_page_size meminfo
      then some ((mount_tokens line).getD 1 [])
      else get_hugepage_dir meminfo rest s := by
  have h4 : ¬ ((mount_tokens line).length ≠ 4) := by rw [hlen]; exact fun h => h rfl
  simp only [get_hugepage_dir, if_neg hs0, get_hugepage_dir_scan, lineVerdict,
    h4, hfs, hopt, if_false, if_true, ite_true, ite_false, not_false_eq_true]
  by_cases hd : s = default_huge_page_size meminfo <;> simp [hd]

/-- C4 witness: default size 2 MiB discovered from `/proc/meminfo`, a
default hugetlbfs mount line, requested size 2097152 — the mount point is
returned. -/
theorem get_hugepage_dir_default_size_match_witness :
    get_hugepage_dir ["Hugepagesize:   2048 kB".toList]
      ["none /mnt/huge hugetlbfs rw 0 0".toList] 2097152 =
      some "/mnt/huge".toList :=
  (get_hugepage_dir_default_size_match ["Hugepagesize:   2048 kB".toList] []
    "none /mnt/huge hugetlbfs rw 0 0".toList 2097152
    (by decide) (by decide) (by decide) (by decide)).trans (by decide)

/-- C5 (code bug): `pagesz_compare` converts the wrapping `uint64_t`
difference to `int`, truncating it to 32 bits.  For the real huge-page
sizes 16 GiB (ppc64 `hugepages-16777216kB`) and 2 MiB the comparator
reports the 16 GiB entry as *smaller*, so the sort leaves the output
descending: the enumeration returns `[17179869184, 2097152]`, which is not
ascending. -/
theorem hp_size_all_unsorted_output :
    odp_sys_huge_page_size_all
      ["hugepages-16777216kB".toList, "hugepages-2048kB".toList] 2 =
      (2, [17179869184, 2097152]) ∧
    (odp_sys_huge_page_size_all
      ["hugepages-16777216kB".toList, "hugepages-2048kB".toList] 2).2.getD 1 0 <
      (odp_sys_huge_page_size_all
        ["hugepages-16777216kB".toList, "hugepages-2048kB".toList] 2).2.getD 0 0 ∧
    pagesz_compare 17179869184 2097152 = -2097152 :=
  ⟨by decide, by decide, by decide⟩

/-- C6: `systemcpu` succeeds only with the probed cache-line size equal to
the compiled `ODP_CACHE_LINE_SIZE`; on success `odp_sys_cache_line_size`
reads back exactly that constant, and a probe of 0 or any differing value
makes `systemcpu` fail. -/
theorem systemcpu_cache_line_check (clc ncpus probe : Int) (s : system_info_t) :
    (∀ s', systemcpu clc ncpus probe s = some s' →
      odp_sys_cache_line_size s' = clc) ∧
    (probe = 0 ∨ probe ≠ clc → systemcpu clc ncpus probe s = none) := by
  constructor
  · intro s' h
    simp only [systemcpu] at h
    split at h
    · exact absurd h (by simp)
    · split at h
      · exact absurd h (by simp)
      · split at h
        · exact absurd h (by simp)
        · next hne =>
          cases h
          simpa [odp_sys_cache_line_size] using not_not.mp hne
  · rintro (h0 | hne)
    · subst h0
      simp [systemcpu]
    · simp [systemcpu, hne]

/-- C6 witness: with compiled constant 64, a 4-CPU system and probe 64
initialization succeeds and the accessor returns 64; with probe 0 it
fails. -/
theorem systemcpu_cache_line_check_witness :
    odp_sys_cache_line_size { cpu_count := 4, cache_line_size := 64 } = 64 ∧
    systemcpu 64 4 0 {} = none :=
  ⟨(systemcpu_cache_line_check 64 4 64 {}).1
      { cpu_count := 4, cache_line_size := 64 } (by decide),
   (systemcpu_cache_line_check 64 4 0 {}).2 (Or.inl rfl)⟩

/-- C7: a CPU id outside `[0, CONFIG_NUM_CPU_IDS)` makes
`odp_cpu_hz_max_id` return 0 and `odp_cpu_model_str_id` return NULL: the
out-of-range branch never consults the per-CPU arrays. -/
theorem cpu_id_out_of_range (config_num_cpu_ids : Nat) (s : system_info_t)
    (id : Int) (h : id < 0 ∨ (config_num_cpu_ids : Int) ≤ id) :
    odp_cpu_hz_max_id config_num_cpu_ids s id = 0 ∧
    odp_cpu_model_str_id config_num_cpu_ids s id = none := by
  have hc : ¬ (0 ≤ id ∧ id < (config_num_cpu_ids : Int)) := by
    rcases h with h | h
    · exact fun hh => absurd hh.1 (not_le.mpr h)
    · exact fun hh => absurd hh.2 (not_lt.mpr h)
  exact ⟨by simp [odp_cpu_hz_max_id, hc], by simp [odp_cpu_model_str_id, hc]⟩

/-- C7 witness: capacity 4, id 7. -/
theorem cpu_id_out_of_range_witness :
    odp_cpu_hz_max_id 4 {} 7 = 0 ∧ odp_cpu_model_str_id 4 {} 7 = none :=
  cpu_id_out_of_range 4 {} 7 (Or.inr (by decide))

/-- C10: the id-less accessors delegate to CPU id 0:
`odp_cpu_hz_max()` is `odp_cpu_hz_max_id(0)` and `odp_cpu_model_str()` is
`odp_cpu_model_str_id(0)`, for every post-initialization state. -/
theorem cpu_accessors_delegate_to_id0 (config_num_cpu_ids : Nat)
    (s : system_info_t) :
    odp_cpu_hz_max config_num_cpu_ids s =
      odp_cpu_hz_max_id config_num_cpu_ids s 0 ∧
    odp_cpu_model_str config_num_cpu_ids s =
      odp_cpu_model_str_id config_num_cpu_ids s 0 :=
  ⟨rfl, rfl⟩

/-- The readdir loop counts every parsed entry, whatever was stored. -/
theorem hp_size_all_loop_count (num : Nat) (es : List (List Char))
    (cnt : Nat) (saved : List Nat) :
    (hp_size_all_loop num es cnt saved).1 =
      cnt + es.countP (fun e => (hpEntryParse e).isSome) := by
  induction es generalizing cnt saved with
  | nil => simp [hp_size_all_loop]
  | cons e es ih =>
    cases he : hpEntryParse e with
    | some sz =>
      simp only [hp_size_all_loop, he]
      rw [ih]
      simp [List.countP_cons, he]
      omega
    | none =>
      simp only [hp_size_all_loop, he]
      rw [ih]
      simp [List.countP_cons, he]

/-- With a zero-capacity destination the readdir loop never stores. -/
theorem hp_size_all_loop_zero_cap (es : List (List Char)) (cnt : Nat)
    (saved : List Nat) :
    (hp_size_all_loop 0 es cnt saved).2 = saved := by
  induction es generalizing cnt with
  | nil => rfl
  | cons e es ih =>
    cases he : hpEntryParse e with
    | some sz =>
      simp only [hp_size_all_loop, he]
      rw [if_neg (Nat.not_lt_zero _)]
      exact ih (cnt + 1)
    | none =>
      simp only [hp_size_all_loop, he]
      exact ih cnt

/-- C8: `odp_sys_huge_page_size_all` returns the true number of directory
entries whose names parse as a huge-page size, for every capacity `num`;
with a zero-capacity destination nothing is written. -/
theorem hp_size_all_count_correct (entries : List (List Char)) (num : Nat) :
    (odp_sys_huge_page_size_all entries num).1 =
      entries.countP (fun e => (hpEntryParse e).isSome) ∧
    (odp_sys_huge_page_size_all entries 0).2 = [] := by
  constructor
  · show (hp_size_all_loop num entries 0 []).1 = _
    rw [hp_size_all_loop_count]
    exact Nat.zero_add _
  · show (if 1 < (hp_size_all_loop 0 entries 0 []).2.length
          then qsortModel pagesz_compare (hp_size_all_loop 0 entries 0 []).2
          else (hp_size_all_loop 0 entries 0 []).2) = []
    rw [hp_size_all_loop_zero_cap]
    rfl

/-- C9: default huge-page size discovery returns `sz * 1024` for the first
`Hugepagesize` line (in particular 2097152 for the spec's example line) and
0 when no line matches. -/
theorem default_huge_page_size_spec :
    (∀ pre l post sz, (∀ x ∈ pre, hpMeminfoParse x = none) →
        hpMeminfoParse l = some sz →
        default_huge_page_size (pre ++ l :: post) = (sz * 1024) % 2 ^ 64) ∧
    default_huge_page_size ["Hugepagesize:   2048 kB".toList] = 2097152 ∧
    (∀ lines, (∀ x ∈ lines, hpMeminfoParse x = none) →
        default_huge_page_size lines = 0) := by
  refine ⟨?_, by decide, ?_⟩
  · intro pre l post sz hpre hl
    induction pre with
    | nil => simp only [List.nil_append, default_huge_page_size, hl]
    | cons a as ih =>
      have ha := hpre a (List.mem_cons_self a as)
      simp only [List.cons_append, default_huge_page_size, ha]
      exact ih (fun x hx => hpre x (List.mem_cons_of_mem a hx))
  · intro lines h
    induction lines with
    | nil => rfl
    | cons a as ih =>
      have ha := h a (List.mem_cons_self a as)
      simp only [default_huge_page_size, ha]
      exact ih (fun x hx => h x (List.mem_cons_of_mem a hx))

/-- C9 witness: a non-matching line followed by the `Hugepagesize` line
gives 2097152 bytes; a text without the key gives 0. -/
theorem default_huge_page_size_spec_witness :
    default_huge_page_size
      ["MemTotal:       16384 kB".toList, "Hugepagesize:   2048 kB".toList] =
      2097152 ∧
    default_huge_page_size ["MemTotal:       16384 kB".toList] = 0 :=
  ⟨default_huge_page_size_spec.1 ["MemTotal:       16384 kB".toList]
      "Hugepagesize:   2048 kB".toList [] 2048 (by decide) (by decide),
   default_huge_page_size_spec.2.2 ["MemTotal:       16384 kB".toList] (by decide)⟩

/-- C2 witness (amended claim): empty meminfo and a mount table with no
hugetlbfs line leave the directory absent. -/
theorem hp_dir_absent_of_no_hugetlb_witness :
    (system_hp [] ["proc /proc proc rw 0 0".toList]).2.default_huge_page_dir =
      none :=
  hp_dir_absent_of_no_hugetlb [] ["proc /proc proc rw 0 0".toList]
    (by decide) (by decide)
